import Mathlib

/-!
Shallow embedding of the session/message/lab-context persistence layer of
the repository: `chat_agent/database/persistence.py` (class SessionManager)
and `chat_agent/database/agent_wrapper.py` (class AgentPersistence).

Conventions of the embedding:
* SQLite rows become Lean structures; a JSON text column that may be NULL
  becomes an `Option` of the structured value (NULL = `none`; serialized
  JSON text = `some v`, since `json.loads` inverts `json.dumps`).
* `CURRENT_TIMESTAMP` becomes a `Nat` tick held in the database state;
  `add_message` advances it, so message timestamps strictly increase
  (idealizing the wall clock as strictly monotone across inserts).
* The float `julianday` difference in statistics becomes an `Int` tick
  difference; no claim inspects its value.
* Exceptions raised across the storage boundary become `Except DbError`.
-/

/-- A JSON object, modelled as an association list of string keys and values. -/
abbrev JsonDict := List (String × String)

/-- One entry of the lab context `services` JSON list, as built by
`AgentPersistence.add_service`: `{"port": port, "service": service, "version": version}`. -/
structure Service where
  port : Int
  service : String
  version : Option String
deriving DecidableEq, Repr

/-- A row of the `sessions` table. -/
structure SessionRow where
  session_id : String
  user_id : String
  session_name : Option String
  lab_environment : Option String
  lab_target : Option String
  lab_objective : Option String
  session_metadata : Option JsonDict
  status : String
  is_archived : Bool
  created_at : Nat
  updated_at : Nat
  last_active : Nat
deriving DecidableEq, Repr

/-- A row of the `messages` table. -/
structure MessageRow where
  message_id : Nat
  session_id : String
  role : String
  content : String
  tool_calls : Option (List JsonDict)
  tool_results : Option (List JsonDict)
  message_metadata : Option JsonDict
  timestamp : Nat
deriving DecidableEq, Repr

/-- A row of the `lab_context` table. -/
structure LabContextRow where
  context_id : Nat
  session_id : String
  phase : String
  findings : Option (List JsonDict)
  open_ports : Option (List Int)
  services : Option (List Service)
  vulnerabilities : Option (List JsonDict)
  credentials : Option (List JsonDict)
  flags : Option JsonDict
  notes : Option String
  updated_at : Nat
deriving DecidableEq, Repr

/-- The durable SQLite database state, plus the autoincrement counter for
message rowids and the current clock tick. -/
structure DB where
  sessions : List SessionRow
  messages : List MessageRow
  contexts : List LabContextRow
  nextMessageId : Nat
  now : Nat
deriving DecidableEq, Repr

/-- Errors surfaced by the storage layer: an IntegrityError for a
foreign-key violation, and the TypeError raised by `dict(None)` when a
required row lookup finds nothing. -/
inductive DbError where
  | foreignKeyViolation
  | noSuchRow
deriving DecidableEq, Repr

/-- SessionManager._get_connection executes no PRAGMA statement when it
opens a connection, and SQLite leaves foreign-key enforcement OFF by
default on every new connection.  Consequently the FK constraints and the
ON DELETE CASCADE actions declared in the schema are never applied at run
time (the pragma is connection-scoped, so even a pragma inside schema.sql
would not affect the fresh connection each operation opens). -/
def foreign_keys_enforced : Bool := false

/-- Modelled from the spec: the file `schema.sql` referenced by
`_initialize_database` is not under `src/`.  Per the spec (Storage Engine
and Session Store sections) the schema declares cascade-delete foreign
keys from the `messages` and `lab_context` tables to `sessions`. -/
def schema_on_delete_cascade : Bool := true

/-- In-memory model of one SQLite connection as used by
`SessionManager._get_connection`: the store as it was committed, the
uncommitted transaction view, and whether the connection was closed. -/
structure Conn (σ : Type) where
  durable : σ
  pending : σ
  closed : Bool
deriving DecidableEq, Repr

/-- Models `sqlite3.connect`. -/
def Conn.connect {σ : Type} (s : σ) : Conn σ :=
  { durable := s, pending := s, closed := false }

/-- Models `conn.commit()`: the transaction view becomes durable. -/
def Conn.commit {σ : Type} (c : Conn σ) : Conn σ :=
  { c with durable := c.pending }

/-- Models `conn.rollback()`: the transaction view is discarded. -/
def Conn.rollback {σ : Type} (c : Conn σ) : Conn σ :=
  { c with pending := c.durable }

/-- Models `conn.close()` in the `finally` block. -/
def Conn.close {σ : Type} (c : Conn σ) : Conn σ :=
  { c with closed := true }

/-- Models the body of `SessionManager._get_connection` (the context
manager): open a connection, run the work on the transaction view, commit
on normal return, roll back and re-raise on any exception, and close the
connection on every exit path.  Returns the final connection object and
the outcome propagated to the caller. -/
def with_connection {σ ε α : Type} (store : σ) (work : σ → Except ε (σ × α)) :
    Conn σ × Except ε α :=
  let conn := Conn.connect store
  match work conn.pending with
  | Except.ok (s2, a) =>
      (Conn.close (Conn.commit { conn with pending := s2 }), Except.ok a)
  | Except.error e =>
      (Conn.close (Conn.rollback conn), Except.error e)

/-- Models `SessionManager.get_session`: point lookup; `None` when the row
is missing (metadata deserialization inverts its serialization, so the row
is returned as stored). -/
def get_session (db : DB) (sid : String) : Option SessionRow :=
  db.sessions.find? (fun s => s.session_id == sid)

/-- Models `SessionManager.delete_session`: `DELETE FROM sessions WHERE
session_id = ?`.  The dependent `messages` and `lab_context` rows are
removed only when the connection enforces foreign keys AND the schema
declares ON DELETE CASCADE; with enforcement off the delete touches only
the `sessions` table. -/
def delete_session (db : DB) (sid : String) : DB :=
  let afterDelete : DB :=
    { db with sessions := db.sessions.filter (fun s => !(s.session_id == sid)) }
  if foreign_keys_enforced && schema_on_delete_cascade then
    { afterDelete with
      messages := afterDelete.messages.filter (fun m => !(m.session_id == sid)),
      contexts := afterDelete.contexts.filter (fun c => !(c.session_id == sid)) }
  else
    afterDelete

/-- Models the Python pattern `json.dumps(v) if v else None` used by
`add_message` and `create_session`: a `None` input and an explicitly
supplied empty collection both serialize to a NULL column, because an
empty list or dict is falsy in Python. -/
def serialize_if_truthy {α : Type} (x : Option (List α)) : Option (List α) :=
  match x with
  | none => none
  | some [] => none
  | some (a :: l) => some (a :: l)

/-- Models `SessionManager.add_message`: inserts the message row
(serializing the structured fields) and stamps the owning session's
`last_active`, both under one connection scope.  The INSERT raises an
IntegrityError for a missing session only when the connection enforces
foreign keys; otherwise the orphan row is inserted. -/
def add_message (db : DB) (sid role content : String)
    (tool_calls tool_results : Option (List JsonDict)) (metadata : Option JsonDict) :
    Except DbError (DB × Nat) :=
  if foreign_keys_enforced && !(db.sessions.any (fun s => s.session_id == sid)) then
    Except.error DbError.foreignKeyViolation
  else
    let mid := db.nextMessageId
    let msg : MessageRow :=
      { message_id := mid
        session_id := sid
        role := role
        content := content
        tool_calls := serialize_if_truthy tool_calls
        tool_results := serialize_if_truthy tool_results
        message_metadata := serialize_if_truthy metadata
        timestamp := db.now }
    let db2 : DB :=
      { db with
        messages := db.messages ++ [msg]
        sessions := db.sessions.map (fun s =>
          if s.session_id == sid then { s with last_active := db.now } else s)
        nextMessageId := mid + 1
        now := db.now + 1 }
    Except.ok (db2, mid)

/-- The optional role filter of `get_messages` (`AND role = ?`). -/
def msg_role_ok (role : Option String) (m : MessageRow) : Bool :=
  match role with
  | none => true
  | some r => m.role == r

/-- Models `SessionManager.get_messages`: filter by session (and optional
role), `ORDER BY timestamp ASC`, then `LIMIT ?` — but the clause is added
under Python's `if limit:`, so a limit of `None` OR `0` returns all rows.
JSON deserialization inverts serialization, so rows are returned as
stored. -/
def get_messages (db : DB) (sid : String) (limit : Option Nat) (role : Option String) :
    List MessageRow :=
  let rows :=
    (db.messages.filter (fun m => m.session_id == sid && msg_role_ok role m)).mergeSort
      (fun a b => decide (a.timestamp ≤ b.timestamp))
  match limit with
  | none => rows
  | some n => if n == 0 then rows else rows.take n

/-- Models `SessionManager.get_conversation_history`: the `{role, content}`
projection of `get_messages(session_id, limit=max_messages)`. -/
def get_conversation_history (db : DB) (sid : String) (max_messages : Nat) :
    List (String × String) :=
  (get_messages db sid (some max_messages) none).map (fun m => (m.role, m.content))

/-- Models `SELECT * FROM lab_context WHERE session_id = ? ORDER BY
context_id DESC LIMIT 1` over rows already filtered to the session: the
row with the greatest `context_id` (first such row when ids repeat). -/
def maxByContextId : List LabContextRow → Option LabContextRow
  | [] => none
  | c :: cs =>
    match maxByContextId cs with
    | none => some c
    | some m => if m.context_id > c.context_id then some m else some c

/-- The current-context query shared by `update_lab_context` and
`get_lab_context`. -/
def current_context (db : DB) (sid : String) : Option LabContextRow :=
  maxByContextId (db.contexts.filter (fun c => c.session_id == sid))

/-- Models `SessionManager.get_lab_context`.  The Python deserialization
loop (`if context.get(field): json.loads(...)`) tests the stored JSON
*text*, which is truthy whenever the column is not NULL (even `"[]"` and
`"{}"` are non-empty strings), so reading returns exactly the stored
option: NULL stays absent, any stored JSON value is parsed back. -/
def get_lab_context (db : DB) (sid : String) : Option LabContextRow :=
  current_context db sid

/-- The keyword arguments of `SessionManager.update_lab_context`; `none`
means the argument was not supplied. -/
structure CtxUpdate where
  phase : Option String
  findings : Option (List JsonDict)
  open_ports : Option (List Int)
  services : Option (List Service)
  vulnerabilities : Option (List JsonDict)
  credentials : Option (List JsonDict)
  flags : Option JsonDict
  notes : Option String
deriving DecidableEq, Repr

/-- An update call with no arguments supplied. -/
def emptyUpdate : CtxUpdate :=
  { phase := none, findings := none, open_ports := none, services := none
    vulnerabilities := none, credentials := none, flags := none, notes := none }

/-- Whether `update_fields` is non-empty, i.e. at least one argument was
supplied (`if fields is not None` checks in the source). -/
def CtxUpdate.hasAny (u : CtxUpdate) : Bool :=
  u.phase.isSome || u.findings.isSome || u.open_ports.isSome || u.services.isSome ||
  u.vulnerabilities.isSome || u.credentials.isSome || u.flags.isSome || u.notes.isSome

/-- The UPDATE statement built by `update_lab_context`: each supplied
argument overwrites its column (an empty list/dict is supplied explicitly,
since the source checks `is not None`, not truthiness), every other column
keeps its stored value; `updated_at` is stamped. -/
def applyCtxUpdate (ctx : LabContextRow) (u : CtxUpdate) (now : Nat) : LabContextRow :=
  { ctx with
    phase := u.phase.getD ctx.phase
    findings := u.findings.or ctx.findings
    open_ports := u.open_ports.or ctx.open_ports
    services := u.services.or ctx.services
    vulnerabilities := u.vulnerabilities.or ctx.vulnerabilities
    credentials := u.credentials.or ctx.credentials
    flags := u.flags.or ctx.flags
    notes := u.notes.or ctx.notes
    updated_at := now }

/-- Models `SessionManager.update_lab_context`: fetch the current context
row for the session (greatest `context_id`); if none exists, do nothing;
if no argument was supplied, no UPDATE is executed; otherwise overwrite
exactly the supplied columns of that row in place. -/
def update_lab_context (db : DB) (sid : String) (u : CtxUpdate) : DB :=
  match current_context db sid with
  | none => db
  | some ctx =>
    if u.hasAny then
      { db with contexts := db.contexts.map (fun c =>
          if c.context_id = ctx.context_id then applyCtxUpdate ctx u db.now else c) }
    else
      db

/-- The statistics record returned by `get_session_statistics`. -/
structure SessionStats where
  message_counts : List (String × Nat)
  total_messages : Nat
  tool_usage_count : Nat
  duration_days : Int
  created_at : Nat
  last_active : Nat
deriving DecidableEq, Repr

/-- Models `SessionManager.get_session_statistics`: GROUP BY role over the
session's messages, count of rows with non-NULL `tool_calls`, then the
session-row lookup for duration — `dict(cursor.fetchone())` raises a
TypeError when the session row is missing, embedded as `DbError.noSuchRow`. -/
def get_session_statistics (db : DB) (sid : String) : Except DbError SessionStats :=
  let msgs := db.messages.filter (fun m => m.session_id == sid)
  let roles := (msgs.map (fun m => m.role)).dedup
  let counts := roles.map (fun r => (r, (msgs.filter (fun m => m.role == r)).length))
  let tool_usage := (msgs.filter (fun m => m.tool_calls.isSome)).length
  match db.sessions.find? (fun s => s.session_id == sid) with
  | none => Except.error DbError.noSuchRow
  | some s =>
      Except.ok
        { message_counts := counts
          total_messages := (counts.map (fun p => p.2)).sum
          tool_usage_count := tool_usage
          duration_days := (s.last_active : Int) - (s.created_at : Int)
          created_at := s.created_at
          last_active := s.last_active }

/-- Insert an integer into a strictly ascending list, keeping it strictly
ascending (duplicates dropped). -/
def insertSorted (x : Int) : List Int → List Int
  | [] => [x]
  | y :: ys =>
    if x < y then x :: y :: ys
    else if x = y then y :: ys
    else y :: insertSorted x ys

/-- Models `sorted(list(s))` for the Python set `s` built from the given
list: the strictly ascending enumeration of its distinct elements. -/
def sortedDedup (l : List Int) : List Int := l.foldr insertSorted []

/-- Models `AgentPersistence.add_ports`: no-op without a current session;
otherwise read the current stored port list (a NULL or empty stored value
contributes the empty set, per the truthiness test in the source), union
with the new ports as a Python set, and write back the sorted list. -/
def add_ports (db : DB) (current_session_id : Option String) (ports : List Int) : DB :=
  match current_session_id with
  | none => db
  | some sid =>
    let ctx := get_lab_context db sid
    let existing : List Int :=
      match ctx with
      | some c => c.open_ports.getD []
      | none => []
    update_lab_context db sid
      { emptyUpdate with open_ports := some (sortedDedup (existing ++ ports)) }

/-- The for/else scan of `AgentPersistence.add_service`: replace the first
entry with the same port in place, or append when no entry matches. -/
def upsertService (info : Service) : List Service → List Service
  | [] => [info]
  | s :: rest =>
    if s.port = info.port then info :: rest else s :: upsertService info rest

/-- Models `AgentPersistence.add_service`: no-op without a current
session; otherwise read the current service list (absent context or NULL
column contributes the empty list), upsert by port, write back. -/
def add_service (db : DB) (current_session_id : Option String) (port : Int)
    (service : String) (version : Option String) : DB :=
  match current_session_id with
  | none => db
  | some sid =>
    let ctx := get_lab_context db sid
    let services : List Service :=
      match ctx with
      | some c => c.services.getD []
      | none => []
    update_lab_context db sid
      { emptyUpdate with
        services := some (upsertService { port := port, service := service, version := version } services) }

/-- A session row used by the concrete databases below. -/
def sess1 : SessionRow :=
  { session_id := "s1", user_id := "default_user", session_name := some "HTB - Nibbles"
    lab_environment := none, lab_target := none, lab_objective := none
    session_metadata := none, status := "active", is_archived := false
    created_at := 0, updated_at := 0, last_active := 0 }

/-- A second, independent session row. -/
def sess2 : SessionRow :=
  { sess1 with session_id := "s2", session_name := none }

/-- The context row of session s1 (one pre-existing service on port 22). -/
def ctx1 : LabContextRow :=
  { context_id := 1, session_id := "s1", phase := "reconnaissance"
    findings := none, open_ports := none
    services := some [{ port := 22, service := "ssh", version := none }]
    vulnerabilities := none, credentials := none, flags := none, notes := none
    updated_at := 0 }

/-- The context row of session s2. -/
def ctx2 : LabContextRow :=
  { ctx1 with context_id := 2, session_id := "s2", services := none }

/-- The single message of session s1. -/
def msg1 : MessageRow :=
  { message_id := 1, session_id := "s1", role := "user", content := "hola"
    tool_calls := none, tool_results := none, message_metadata := none, timestamp := 0 }

/-- The single message of session s2. -/
def msg2 : MessageRow :=
  { msg1 with message_id := 2, session_id := "s2", content := "hi there", timestamp := 1 }

/-- A two-session database: each session has one message and one context row. -/
def twoSessionDb : DB :=
  { sessions := [sess1, sess2], messages := [msg1, msg2], contexts := [ctx1, ctx2]
    nextMessageId := 3, now := 2 }

/-- A database with no rows at all. -/
def emptyDb : DB :=
  { sessions := [], messages := [], contexts := [], nextMessageId := 1, now := 0 }

deriving instance DecidableEq for Except

/-! Lemmas about the current-context query and in-place updates. -/

theorem maxByContextId_mem {l : List LabContextRow} {c : LabContextRow}
    (h : maxByContextId l = some c) : c ∈ l := by
  induction l with
  | nil => simp [maxByContextId] at h
  | cons a as ih =>
    simp only [maxByContextId] at h
    cases hm : maxByContextId as with
    | none =>
      rw [hm] at h
      simp only [Option.some.injEq] at h
      exact h ▸ List.mem_cons_self a as
    | some m =>
      rw [hm] at h
      dsimp only at h
      by_cases hgt : m.context_id > a.context_id
      · rw [if_pos hgt] at h
        simp only [Option.some.injEq] at h
        exact List.mem_cons_of_mem a (ih (h ▸ hm))
      · rw [if_neg hgt] at h
        simp only [Option.some.injEq] at h
        exact h ▸ List.mem_cons_self a as

theorem maxByContextId_map {l : List LabContextRow} {f : LabContextRow → LabContextRow}
    (hf : ∀ c ∈ l, (f c).context_id = c.context_id) :
    maxByContextId (l.map f) = (maxByContextId l).map f := by
  induction l with
  | nil => rfl
  | cons a as ih =>
    simp only [List.map_cons, maxByContextId]
    rw [ih (fun c hc => hf c (List.mem_cons_of_mem a hc))]
    cases hm : maxByContextId as with
    | none => rfl
    | some m =>
      have hm2 : m ∈ as := maxByContextId_mem hm
      simp only [Option.map_some']
      rw [hf m (List.mem_cons_of_mem a hm2), hf a (List.mem_cons_self a as)]
      by_cases hgt : m.context_id > a.context_id
      · rw [if_pos hgt, if_pos hgt]
        rfl
      · rw [if_neg hgt, if_neg hgt]
        rfl

theorem current_context_mem {db : DB} {sid : String} {ctx : LabContextRow}
    (hc : current_context db sid = some ctx) :
    ctx ∈ db.contexts ∧ ctx.session_id = sid := by
  have h1 := maxByContextId_mem hc
  refine ⟨List.mem_of_mem_filter h1, ?_⟩
  have h2 := List.of_mem_filter h1
  simpa using h2

theorem applyCtxUpdate_context_id (ctx : LabContextRow) (u : CtxUpdate) (n : Nat) :
    (applyCtxUpdate ctx u n).context_id = ctx.context_id := rfl

theorem applyCtxUpdate_session_id (ctx : LabContextRow) (u : CtxUpdate) (n : Nat) :
    (applyCtxUpdate ctx u n).session_id = ctx.session_id := rfl

theorem update_lab_context_noop (db : DB) (sid : String) (u : CtxUpdate)
    (hu : u.hasAny = false) : update_lab_context db sid u = db := by
  unfold update_lab_context
  cases hc : current_context db sid with
  | none => rfl
  | some ctx => simp [hu]

theorem update_lab_context_ids (db : DB) (sid : String) (u : CtxUpdate) :
    (update_lab_context db sid u).contexts.map LabContextRow.context_id =
      db.contexts.map LabContextRow.context_id := by
  unfold update_lab_context
  cases hc : current_context db sid with
  | none => rfl
  | some ctx =>
    by_cases hu : u.hasAny = true
    · simp only [hu, if_true, List.map_map]
      apply List.map_congr_left
      intro c _
      by_cases h : c.context_id = ctx.context_id
      · simp [h, applyCtxUpdate]
      · simp [h]
    · simp [hu]

theorem current_context_update {db : DB} {sid : String} {u : CtxUpdate} {ctx : LabContextRow}
    (hnd : (db.contexts.map LabContextRow.context_id).Nodup)
    (hc : current_context db sid = some ctx) (hu : u.hasAny = true) :
    current_context (update_lab_context db sid u) sid =
      some (applyCtxUpdate ctx u db.now) := by
  obtain ⟨hmem, hsid⟩ := current_context_mem hc
  unfold update_lab_context
  rw [hc]
  simp only [hu, if_true]
  unfold current_context
  simp only
  rw [List.filter_map]
  have hpf : ∀ c ∈ db.contexts,
      ((fun x => x.session_id == sid) ∘ fun c =>
        if c.context_id = ctx.context_id then applyCtxUpdate ctx u db.now else c) c =
      (fun x => x.session_id == sid) c := by
    intro c hcmem
    by_cases h : c.context_id = ctx.context_id
    · have hceq : c = ctx :=
        List.inj_on_of_nodup_map hnd hcmem hmem (by simpa using h)
      subst hceq
      simp [h, applyCtxUpdate]
    · simp [h]
  rw [List.filter_congr hpf]
  have hf : ∀ c ∈ db.contexts.filter (fun x => x.session_id == sid),
      ((fun c => if c.context_id = ctx.context_id then applyCtxUpdate ctx u db.now else c) c).context_id =
        c.context_id := by
    intro c _
    by_cases h : c.context_id = ctx.context_id
    · simp [h, applyCtxUpdate]
    · simp [h]
  rw [maxByContextId_map hf]
  have : maxByContextId (db.contexts.filter (fun x => x.session_id == sid)) = some ctx := hc
  rw [this]
  simp

/-! Lemmas about the sorted-set merge used by add_ports. -/

theorem mem_insertSorted {a x : Int} {l : List Int} :
    a ∈ insertSorted x l ↔ a = x ∨ a ∈ l := by
  induction l with
  | nil => simp [insertSorted]
  | cons y ys ih =>
    by_cases h1 : x < y
    · simp only [insertSorted, if_pos h1, List.mem_cons]
    · by_cases h2 : x = y
      · simp only [insertSorted, if_neg h1, if_pos h2, List.mem_cons]
        rw [h2]
        tauto
      · simp only [insertSorted, if_neg h1, if_neg h2, List.mem_cons, ih]
        tauto

theorem sorted_insertSorted {x : Int} {l : List Int}
    (h : l.Pairwise (· < ·)) : (insertSorted x l).Pairwise (· < ·) := by
  induction l with
  | nil => simp [insertSorted]
  | cons y ys ih =>
    rcases List.pairwise_cons.mp h with ⟨hy, hys⟩
    by_cases h1 : x < y
    · simp only [insertSorted, if_pos h1]
      refine List.pairwise_cons.mpr ⟨?_, h⟩
      intro b hb
      rcases List.mem_cons.mp hb with rfl | hb2
      · exact h1
      · exact lt_trans h1 (hy b hb2)
    · by_cases h2 : x = y
      · simp only [insertSorted, if_neg h1, if_pos h2]
        exact h
      · simp only [insertSorted, if_neg h1, if_neg h2]
        have hyx : y < x := by omega
        refine List.pairwise_cons.mpr ⟨?_, ih hys⟩
        intro b hb
        rcases mem_insertSorted.mp hb with rfl | hb2
        · exact hyx
        · exact hy b hb2

theorem mem_sortedDedup {a : Int} {l : List Int} : a ∈ sortedDedup l ↔ a ∈ l := by
  induction l with
  | nil => simp [sortedDedup]
  | cons x xs ih =>
    show a ∈ insertSorted x (sortedDedup xs) ↔ a ∈ x :: xs
    rw [mem_insertSorted, ih, List.mem_cons]

theorem sorted_sortedDedup (l : List Int) : (sortedDedup l).Pairwise (· < ·) := by
  induction l with
  | nil => simp [sortedDedup]
  | cons x xs ih => exact sorted_insertSorted ih

theorem strictSorted_eq_of_mem_iff {l m : List Int}
    (hl : l.Pairwise (· < ·)) (hm : m.Pairwise (· < ·))
    (h : ∀ x, x ∈ l ↔ x ∈ m) : l = m := by
  haveI : IsAntisymm Int (· < ·) := ⟨fun a b h1 h2 => absurd h2 (asymm h1)⟩
  have hnl : l.Nodup := hl.imp (fun hab => ne_of_lt hab)
  have hnm : m.Nodup := hm.imp (fun hab => ne_of_lt hab)
  have hperm : l.Perm m := (List.perm_ext_iff_of_nodup hnl hnm).mpr h
  exact List.eq_of_perm_of_sorted hperm hl hm

theorem sortedDedup_eq_of_mem {m : List Int} (l : List Int) (hm : m.Pairwise (· < ·))
    (h : ∀ x, x ∈ l ↔ x ∈ m) : sortedDedup l = m :=
  strictSorted_eq_of_mem_iff (sorted_sortedDedup l) hm
    (fun x => Iff.trans mem_sortedDedup (h x))

/-! Lemmas about the upsert-by-port scan used by add_service. -/

theorem upsertService_not_mem {info : Service} {l : List Service}
    (h : info.port ∉ l.map Service.port) : upsertService info l = l ++ [info] := by
  induction l with
  | nil => rfl
  | cons s rest ih =>
    simp only [List.map_cons, List.mem_cons] at h
    push_neg at h
    simp only [upsertService]
    rw [if_neg (fun he => h.1 he.symm), ih h.2]
    rfl

theorem upsertService_replace {info e : Service} {pre post : List Service}
    (he : e.port = info.port) (hpre : info.port ∉ pre.map Service.port) :
    upsertService info (pre ++ e :: post) = pre ++ info :: post := by
  induction pre with
  | nil =>
    simp only [List.nil_append, upsertService]
    rw [if_pos he]
  | cons s rest ih =>
    simp only [List.map_cons, List.mem_cons] at hpre
    push_neg at hpre
    simp only [List.cons_append, upsertService]
    rw [if_neg (fun hs => hpre.1 hs.symm)]
    simp only [List.append_eq]
    rw [ih hpre.2]

/-! Lemma about bounded message retrieval. -/

theorem get_messages_sorted_take {db : DB} {sid : String} {N : Nat}
    (hts : db.messages.Pairwise (fun a b => a.timestamp < b.timestamp)) (hN : N ≠ 0) :
    get_messages db sid (some N) none =
      (db.messages.filter (fun m => m.session_id == sid)).take N := by
  unfold get_messages
  have h1 : db.messages.filter (fun m => m.session_id == sid && msg_role_ok none m) =
      db.messages.filter (fun m => m.session_id == sid) := by
    apply List.filter_congr
    intro m _
    simp [msg_role_ok]
  rw [h1]
  have h2 : (db.messages.filter (fun m => m.session_id == sid)).Pairwise
      (fun a b => decide (a.timestamp ≤ b.timestamp)) :=
    (hts.filter (fun m => m.session_id == sid)).imp
      (fun hab => by simpa using le_of_lt hab)
  rw [List.mergeSort_of_sorted h2]
  simp [hN]

/-! Claim theorems. -/

unseal List.merge List.mergeSort in
/-- C1: the code violates the claim.  After deleteSession("s1") on a
database where session s1 has one message and one context row, the session
row is gone but getMessages("s1") still returns the orphaned message and
getContext("s1") still returns the orphaned context row: the connection
never enables SQLite foreign-key enforcement, so the schema's cascade rules
are not applied as part of the delete.  Sessions with other identifiers
are unaffected (that part of the claim holds). -/
theorem delete_session_leaves_orphans :
    get_session (delete_session twoSessionDb "s1") "s1" = none ∧
    get_messages (delete_session twoSessionDb "s1") "s1" none none = [msg1] ∧
    get_lab_context (delete_session twoSessionDb "s1") "s1" = some ctx1 ∧
    get_session (delete_session twoSessionDb "s1") "s2" = some sess2 ∧
    get_messages (delete_session twoSessionDb "s1") "s2" none none = [msg2] ∧
    get_lab_context (delete_session twoSessionDb "s1") "s2" = some ctx2 := by
  decide

unseal List.merge List.mergeSort in
/-- C2: the code violates the claim.  addMessage on a session identifier
that has no session row does not fail with a referential error: foreign-key
enforcement is off on the connection, so the INSERT succeeds and an orphan
message row becomes readable for the nonexistent session. -/
theorem add_message_orphan_insert :
    ∃ p : DB × Nat,
      add_message emptyDb "ghost" "user" "hola" none none none = Except.ok p ∧
      (get_messages p.1 "ghost" none none).length = 1 := by
  exact ⟨_, rfl, by decide⟩

/-- C3: the connection scope commits the work's writes on normal return;
on an exception it rolls the store back to its initial state and re-raises
the same exception; and on every exit path the connection is closed. -/
theorem with_connection_spec {σ ε α : Type} (store : σ) (work : σ → Except ε (σ × α)) :
    ((with_connection store work).1.closed = true) ∧
    (∀ s2 a, work store = Except.ok (s2, a) →
      (with_connection store work).1.durable = s2 ∧
      (with_connection store work).2 = Except.ok a) ∧
    (∀ e, work store = Except.error e →
      (with_connection store work).1.durable = store ∧
      (with_connection store work).2 = Except.error e) := by
  have key : with_connection store work =
      (match work store with
       | Except.ok (s2, a) =>
           (Conn.close (Conn.commit { Conn.connect store with pending := s2 }), Except.ok a)
       | Except.error e =>
           (Conn.close (Conn.rollback (Conn.connect store)), Except.error e)) := rfl
  rw [key]
  cases hw : work store with
  | ok p =>
    obtain ⟨s2, a⟩ := p
    refine ⟨rfl, ?_, ?_⟩
    · intro s3 b h
      cases h
      exact ⟨rfl, rfl⟩
    · intro e h
      exact Except.noConfusion h
  | error e0 =>
    refine ⟨rfl, ?_, ?_⟩
    · intro s3 b h
      exact Except.noConfusion h
    · intro e h
      cases h
      exact ⟨rfl, rfl⟩

/-- Witness for C3 at a concrete store and work on both exit paths. -/
theorem with_connection_spec_witness :
    ((with_connection (0 : Nat) (fun s => (Except.ok (s + 1, true) : Except Unit (Nat × Bool)))).1.closed = true ∧
      (with_connection (0 : Nat) (fun s => (Except.ok (s + 1, true) : Except Unit (Nat × Bool)))).1.durable = 1 ∧
      (with_connection (0 : Nat) (fun s => (Except.ok (s + 1, true) : Except Unit (Nat × Bool)))).2 = Except.ok true) ∧
    ((with_connection (0 : Nat) (fun _ => (Except.error () : Except Unit (Nat × Bool)))).1.closed = true ∧
      (with_connection (0 : Nat) (fun _ => (Except.error () : Except Unit (Nat × Bool)))).1.durable = 0 ∧
      (with_connection (0 : Nat) (fun _ => (Except.error () : Except Unit (Nat × Bool)))).2 = Except.error ()) := by
  have h1 := with_connection_spec (0 : Nat) (fun s => (Except.ok (s + 1, true) : Except Unit (Nat × Bool)))
  have h2 := with_connection_spec (0 : Nat) (fun _ => (Except.error () : Except Unit (Nat × Bool)))
  exact ⟨⟨h1.1, (h1.2.1 1 true rfl).1, (h1.2.1 1 true rfl).2⟩,
    ⟨h2.1, (h2.2.2 () rfl).1, (h2.2.2 () rfl).2⟩⟩

/-- C9: for an existing session that has zero messages, the statistics
query returns an empty message-count mapping and a total of zero. -/
theorem get_session_statistics_no_messages (db : DB) (sid : String) (s : SessionRow)
    (hfind : db.sessions.find? (fun s2 => s2.session_id == sid) = some s)
    (hmsgs : db.messages.filter (fun m => m.session_id == sid) = []) :
    ∃ st : SessionStats,
      get_session_statistics db sid = Except.ok st ∧
      st.message_counts = [] ∧ st.total_messages = 0 := by
  unfold get_session_statistics
  rw [hmsgs, hfind]
  exact ⟨_, rfl, rfl, rfl⟩

/-- Witness for C9: session s1 exists and has no messages. -/
theorem get_session_statistics_no_messages_witness :
    ∃ st : SessionStats,
      get_session_statistics { twoSessionDb with messages := [] } "s1" = Except.ok st ∧
      st.message_counts = [] ∧ st.total_messages = 0 :=
  get_session_statistics_no_messages { twoSessionDb with messages := [] } "s1" sess1
    (by decide) (by decide)

/-- C10: for a session identifier that has no session row, the statistics
query raises (the session-duration lookup finds no row and the dict
construction fails) instead of returning an absent or empty record, while
get_session and get_lab_context return absent for the same identifier — the
layer's not-found-is-absent convention. -/
theorem get_session_statistics_missing_raises (db : DB) (sid : String)
    (hs : ∀ s ∈ db.sessions, s.session_id ≠ sid)
    (hc : ∀ c ∈ db.contexts, c.session_id ≠ sid) :
    get_session_statistics db sid = Except.error DbError.noSuchRow ∧
    get_session db sid = none ∧
    get_lab_context db sid = none := by
  have hfind : db.sessions.find? (fun s => s.session_id == sid) = none := by
    rw [List.find?_eq_none]
    intro s hsmem
    simpa using hs s hsmem
  refine ⟨?_, hfind, ?_⟩
  · unfold get_session_statistics
    rw [hfind]
  · unfold get_lab_context current_context
    have hfe : db.contexts.filter (fun c => c.session_id == sid) = [] := by
      rw [List.filter_eq_nil_iff]
      intro c hcm
      simpa using hc c hcm
    rw [hfe]
    rfl

/-- Witness for C10: the empty database and an unknown identifier. -/
theorem get_session_statistics_missing_raises_witness :
    get_session_statistics emptyDb "ghost" = Except.error DbError.noSuchRow ∧
    get_session emptyDb "ghost" = none ∧
    get_lab_context emptyDb "ghost" = none :=
  get_session_statistics_missing_raises emptyDb "ghost" (by simp [emptyDb])
    (by simp [emptyDb])

/-- C6: update_lab_context is a partial merge, never a whole-record
replace: every context field for which no value is supplied (phase,
findings, open ports, services, vulnerabilities, credentials, flags,
notes) retains exactly its previous stored value after the call. -/
theorem update_lab_context_partial (db : DB) (sid : String) (u : CtxUpdate)
    (ctx : LabContextRow)
    (hnd : (db.contexts.map LabContextRow.context_id).Nodup)
    (hc : current_context db sid = some ctx) :
    ∃ ctx2 : LabContextRow,
      get_lab_context (update_lab_context db sid u) sid = some ctx2 ∧
      (u.phase = none → ctx2.phase = ctx.phase) ∧
      (u.findings = none → ctx2.findings = ctx.findings) ∧
      (u.open_ports = none → ctx2.open_ports = ctx.open_ports) ∧
      (u.services = none → ctx2.services = ctx.services) ∧
      (u.vulnerabilities = none → ctx2.vulnerabilities = ctx.vulnerabilities) ∧
      (u.credentials = none → ctx2.credentials = ctx.credentials) ∧
      (u.flags = none → ctx2.flags = ctx.flags) ∧
      (u.notes = none → ctx2.notes = ctx.notes) := by
  by_cases hu : u.hasAny = true
  · refine ⟨applyCtxUpdate ctx u db.now, current_context_update hnd hc hu,
      ?_, ?_, ?_, ?_, ?_, ?_, ?_, ?_⟩ <;>
      (intro h; simp [applyCtxUpdate, h])
  · have hu2 : u.hasAny = false := by
      cases hh : u.hasAny
      · rfl
      · exact absurd hh hu
    rw [show get_lab_context (update_lab_context db sid u) sid =
        current_context (update_lab_context db sid u) sid from rfl,
      update_lab_context_noop db sid u hu2]
    exact ⟨ctx, hc, fun _ => rfl, fun _ => rfl, fun _ => rfl, fun _ => rfl,
      fun _ => rfl, fun _ => rfl, fun _ => rfl, fun _ => rfl⟩

/-- Witness for C6: an update supplying only the phase leaves the other
seven fields of the current context row of session s1 untouched. -/
theorem update_lab_context_partial_witness :
    ∃ ctx2 : LabContextRow,
      get_lab_context (update_lab_context twoSessionDb "s1"
        { emptyUpdate with phase := some "enumeration" }) "s1" = some ctx2 ∧
      (({ emptyUpdate with phase := some "enumeration" } : CtxUpdate).phase = none →
        ctx2.phase = ctx1.phase) ∧
      (({ emptyUpdate with phase := some "enumeration" } : CtxUpdate).findings = none →
        ctx2.findings = ctx1.findings) ∧
      (({ emptyUpdate with phase := some "enumeration" } : CtxUpdate).open_ports = none →
        ctx2.open_ports = ctx1.open_ports) ∧
      (({ emptyUpdate with phase := some "enumeration" } : CtxUpdate).services = none →
        ctx2.services = ctx1.services) ∧
      (({ emptyUpdate with phase := some "enumeration" } : CtxUpdate).vulnerabilities = none →
        ctx2.vulnerabilities = ctx1.vulnerabilities) ∧
      (({ emptyUpdate with phase := some "enumeration" } : CtxUpdate).credentials = none →
        ctx2.credentials = ctx1.credentials) ∧
      (({ emptyUpdate with phase := some "enumeration" } : CtxUpdate).flags = none →
        ctx2.flags = ctx1.flags) ∧
      (({ emptyUpdate with phase := some "enumeration" } : CtxUpdate).notes = none →
        ctx2.notes = ctx1.notes) :=
  update_lab_context_partial twoSessionDb "s1"
    { emptyUpdate with phase := some "enumeration" } ctx1 (by decide) (by decide)

theorem add_ports_ids (db : DB) (sid : String) (ps : List Int) :
    (add_ports db (some sid) ps).contexts.map LabContextRow.context_id =
      db.contexts.map LabContextRow.context_id :=
  update_lab_context_ids db sid _

theorem add_ports_step (ps : List Int) {db : DB} {sid : String} {ctx : LabContextRow}
    (hnd : (db.contexts.map LabContextRow.context_id).Nodup)
    (hc : current_context db sid = some ctx) :
    current_context (add_ports db (some sid) ps) sid =
      some (applyCtxUpdate ctx
        { emptyUpdate with
          open_ports := some (sortedDedup (ctx.open_ports.getD [] ++ ps)) }
        db.now) := by
  have hg : get_lab_context db sid = some ctx := hc
  have key : add_ports db (some sid) ps =
      update_lab_context db sid
        { emptyUpdate with
          open_ports := some (sortedDedup
            ((match get_lab_context db sid with
              | some c => c.open_ports.getD []
              | none => []) ++ ps)) } := rfl
  rw [key, hg]
  exact current_context_update hnd hc rfl

unseal List.merge List.mergeSort in
/-- C4: add_ports unions the supplied ports with the stored set (an absent
stored value contributes the empty set) and stores the union as an
ascending sorted sequence without duplicates; the operation is idempotent
(adding the same list twice leaves the stored sequence unchanged) and
commutative/associative in effect (two successive calls equal one call on
the concatenation); on the claim's concrete example, adding [80, 22] then
[22, 443] and adding [443, 22, 80] in one call both store [22, 80, 443]. -/
theorem add_ports_spec (db : DB) (sid : String) (ps1 ps2 : List Int) (ctx : LabContextRow)
    (hnd : (db.contexts.map LabContextRow.context_id).Nodup)
    (hc : current_context db sid = some ctx) :
    ∃ ctx2 : LabContextRow,
      get_lab_context (add_ports db (some sid) ps1) sid = some ctx2 ∧
      ctx2.open_ports = some (sortedDedup (ctx.open_ports.getD [] ++ ps1)) ∧
      (sortedDedup (ctx.open_ports.getD [] ++ ps1)).Pairwise (· < ·) ∧
      (∀ x : Int, x ∈ sortedDedup (ctx.open_ports.getD [] ++ ps1) ↔
        x ∈ ctx.open_ports.getD [] ∨ x ∈ ps1) ∧
      (∃ ctx3 : LabContextRow,
        get_lab_context (add_ports (add_ports db (some sid) ps1) (some sid) ps1) sid =
          some ctx3 ∧
        ctx3.open_ports = ctx2.open_ports) ∧
      (∃ ctx4 ctx5 : LabContextRow,
        get_lab_context (add_ports (add_ports db (some sid) ps1) (some sid) ps2) sid =
          some ctx4 ∧
        get_lab_context (add_ports db (some sid) (ps1 ++ ps2)) sid = some ctx5 ∧
        ctx4.open_ports = ctx5.open_ports) ∧
      ((get_lab_context (add_ports (add_ports twoSessionDb (some "s1") [80, 22])
          (some "s1") [22, 443]) "s1").map LabContextRow.open_ports =
        some (some [22, 80, 443]) ∧
       (get_lab_context (add_ports twoSessionDb (some "s1") [443, 22, 80])
          "s1").map LabContextRow.open_ports = some (some [22, 80, 443])) := by
  have h1 := add_ports_step ps1 hnd hc
  have hids1 : ((add_ports db (some sid) ps1).contexts.map LabContextRow.context_id).Nodup := by
    rw [add_ports_ids]
    exact hnd
  have h2 := add_ports_step ps1 hids1 h1
  have h4 := add_ports_step ps2 hids1 h1
  have h5 := add_ports_step (ps1 ++ ps2) hnd hc
  refine ⟨_, h1, rfl, sorted_sortedDedup _, ?_, ⟨_, h2, ?_⟩, ⟨_, _, h4, h5, ?_⟩, ?_, ?_⟩
  · intro x
    rw [mem_sortedDedup, List.mem_append]
  · show some (sortedDedup (sortedDedup (ctx.open_ports.getD [] ++ ps1) ++ ps1)) =
      some (sortedDedup (ctx.open_ports.getD [] ++ ps1))
    refine congrArg some (sortedDedup_eq_of_mem _ (sorted_sortedDedup _) ?_)
    intro x
    simp only [mem_sortedDedup, List.mem_append]
    tauto
  · show some (sortedDedup (sortedDedup (ctx.open_ports.getD [] ++ ps1) ++ ps2)) =
      some (sortedDedup (ctx.open_ports.getD [] ++ (ps1 ++ ps2)))
    refine congrArg some (strictSorted_eq_of_mem_iff (sorted_sortedDedup _)
      (sorted_sortedDedup _) ?_)
    intro x
    simp only [mem_sortedDedup, List.mem_append]
    tauto
  · decide
  · decide

/-- Witness for C4 at session s1 of the two-session database. -/
theorem add_ports_spec_witness :
    ∃ ctx2 : LabContextRow,
      get_lab_context (add_ports twoSessionDb (some "s1") [80, 22]) "s1" = some ctx2 ∧
      ctx2.open_ports = some (sortedDedup (ctx1.open_ports.getD [] ++ [80, 22])) ∧
      (sortedDedup (ctx1.open_ports.getD [] ++ [80, 22])).Pairwise (· < ·) ∧
      (∀ x : Int, x ∈ sortedDedup (ctx1.open_ports.getD [] ++ [80, 22]) ↔
        x ∈ ctx1.open_ports.getD [] ∨ x ∈ [80, 22]) ∧
      (∃ ctx3 : LabContextRow,
        get_lab_context (add_ports (add_ports twoSessionDb (some "s1") [80, 22])
          (some "s1") [80, 22]) "s1" = some ctx3 ∧
        ctx3.open_ports = ctx2.open_ports) ∧
      (∃ ctx4 ctx5 : LabContextRow,
        get_lab_context (add_ports (add_ports twoSessionDb (some "s1") [80, 22])
          (some "s1") [22, 443]) "s1" = some ctx4 ∧
        get_lab_context (add_ports twoSessionDb (some "s1") ([80, 22] ++ [22, 443])) "s1" =
          some ctx5 ∧
        ctx4.open_ports = ctx5.open_ports) ∧
      ((get_lab_context (add_ports (add_ports twoSessionDb (some "s1") [80, 22])
          (some "s1") [22, 443]) "s1").map LabContextRow.open_ports =
        some (some [22, 80, 443]) ∧
       (get_lab_context (add_ports twoSessionDb (some "s1") [443, 22, 80])
          "s1").map LabContextRow.open_ports = some (some [22, 80, 443])) :=
  add_ports_spec twoSessionDb "s1" [80, 22] [22, 443] ctx1 (by decide) (by decide)

theorem add_service_step (port : Int) (service : String) (version : Option String)
    {db : DB} {sid : String} {ctx : LabContextRow}
    (hnd : (db.contexts.map LabContextRow.context_id).Nodup)
    (hc : current_context db sid = some ctx) :
    current_context (add_service db (some sid) port service version) sid =
      some (applyCtxUpdate ctx
        { emptyUpdate with
          services := some (upsertService
            { port := port, service := service, version := version }
            (ctx.services.getD [])) }
        db.now) := by
  have hg : get_lab_context db sid = some ctx := hc
  have key : add_service db (some sid) port service version =
      update_lab_context db sid
        { emptyUpdate with
          services := some (upsertService
            { port := port, service := service, version := version }
            ((match get_lab_context db sid with
              | some c => c.services.getD []
              | none => []))) } := rfl
  rw [key, hg]
  exact current_context_update hnd hc rfl

unseal List.merge List.mergeSort in
/-- C5: add_service is an upsert by port: when an entry with the same port
exists, the first such entry is replaced in place (its position kept);
otherwise the new entry is appended; on the claim's concrete example,
adding (80, http, 1.0) and then (80, http, 2.0) leaves exactly one entry
for port 80, carrying version 2.0, at the position of the first
insertion. -/
theorem add_service_upsert (db : DB) (sid : String) (port : Int) (service : String)
    (version : Option String) (ctx : LabContextRow)
    (hnd : (db.contexts.map LabContextRow.context_id).Nodup)
    (hc : current_context db sid = some ctx) :
    ∃ ctx2 : LabContextRow,
      get_lab_context (add_service db (some sid) port service version) sid = some ctx2 ∧
      ctx2.services = some (upsertService
        { port := port, service := service, version := version } (ctx.services.getD [])) ∧
      (port ∉ (ctx.services.getD []).map Service.port →
        upsertService { port := port, service := service, version := version }
            (ctx.services.getD []) =
          ctx.services.getD [] ++ [{ port := port, service := service, version := version }]) ∧
      (∀ pre e post, ctx.services.getD [] = pre ++ e :: post → e.port = port →
        port ∉ pre.map Service.port →
        upsertService { port := port, service := service, version := version }
            (ctx.services.getD []) =
          pre ++ { port := port, service := service, version := version } :: post) ∧
      ((get_lab_context (add_service (add_service twoSessionDb (some "s1") 80 "http"
          (some "1.0")) (some "s1") 80 "http" (some "2.0")) "s1").map
            LabContextRow.services =
        some (some [{ port := 22, service := "ssh", version := none },
          { port := 80, service := "http", version := some "2.0" }])) := by
  have h1 := add_service_step port service version hnd hc
  refine ⟨_, h1, rfl, ?_, ?_, by decide⟩
  · intro hnotin
    exact upsertService_not_mem hnotin
  · intro pre e post hsplit hep hpre
    rw [hsplit]
    exact upsertService_replace hep hpre

/-- Witness for C5 at session s1 of the two-session database (its context
already lists a service on port 22, so the appended port-80 entry lands at
position 1 and stays there on replacement). -/
theorem add_service_upsert_witness :
    ∃ ctx2 : LabContextRow,
      get_lab_context (add_service twoSessionDb (some "s1") 80 "http" (some "1.0")) "s1" =
        some ctx2 ∧
      ctx2.services = some (upsertService
        { port := 80, service := "http", version := some "1.0" } (ctx1.services.getD [])) ∧
      ((80 : Int) ∉ (ctx1.services.getD []).map Service.port →
        upsertService { port := 80, service := "http", version := some "1.0" }
            (ctx1.services.getD []) =
          ctx1.services.getD [] ++ [{ port := 80, service := "http", version := some "1.0" }]) ∧
      (∀ pre e post, ctx1.services.getD [] = pre ++ e :: post → e.port = 80 →
        (80 : Int) ∉ pre.map Service.port →
        upsertService { port := 80, service := "http", version := some "1.0" }
            (ctx1.services.getD []) =
          pre ++ { port := 80, service := "http", version := some "1.0" } :: post) ∧
      ((get_lab_context (add_service (add_service twoSessionDb (some "s1") 80 "http"
          (some "1.0")) (some "s1") 80 "http" (some "2.0")) "s1").map
            LabContextRow.services =
        some (some [{ port := 22, service := "ssh", version := none },
          { port := 80, service := "http", version := some "2.0" }])) :=
  add_service_upsert twoSessionDb "s1" 80 "http" (some "1.0") ctx1 (by decide) (by decide)

unseal List.merge List.mergeSort in
/-- C7 counterexample: the claim fails on the code.  Adding a message with
an explicitly supplied EMPTY tool-call list stores a NULL column (Python:
json.dumps(v) if v else None, and an empty list is falsy), so the read
back yields an absent field — it never deserializes as an empty-but-present
collection distinguishable from absent. -/
theorem empty_tool_calls_roundtrip_cex :
    ∃ p : DB × Nat,
      add_message twoSessionDb "s1" "assistant" "listo" (some []) none none =
        Except.ok p ∧
      (get_messages p.1 "s1" none none).map MessageRow.tool_calls = [none, none] ∧
      ¬ (some [] ∈ (get_messages p.1 "s1" none none).map MessageRow.tool_calls) := by
  exact ⟨_, rfl, by decide, by decide⟩

/-- C7 amended: for the message JSON fields (tool calls, tool results,
metadata) an absent input and an explicitly supplied empty collection are
both stored as a NULL column and read back as absent — the distinction is
NOT preserved; a non-empty collection round-trips intact.  For the Lab
Context JSON fields the distinction IS preserved: an explicitly supplied
empty collection is stored as an empty JSON value and reads back as
empty-but-present, distinguishable from a NULL column. -/
theorem json_field_roundtrip (db : DB) (sid role content : String) (l : List JsonDict)
    (hl : l ≠ []) (ctx : LabContextRow)
    (hnd : (db.contexts.map LabContextRow.context_id).Nodup)
    (hc : current_context db sid = some ctx) :
    serialize_if_truthy (some ([] : List JsonDict)) = none ∧
    serialize_if_truthy (none : Option (List JsonDict)) = none ∧
    serialize_if_truthy (some l) = some l ∧
    (∀ db2 mid, add_message db sid role content (some l) none none = Except.ok (db2, mid) →
      ∃ m, m ∈ db2.messages ∧ m.message_id = mid ∧ m.tool_calls = some l) ∧
    (∀ db2 mid, add_message db sid role content (some []) none none = Except.ok (db2, mid) →
      ∃ m, m ∈ db2.messages ∧ m.message_id = mid ∧ m.tool_calls = none) ∧
    (∃ ctx2 : LabContextRow,
      get_lab_context (update_lab_context db sid
        { emptyUpdate with findings := some [] }) sid = some ctx2 ∧
      ctx2.findings = some [] ∧ ctx2.open_ports = ctx.open_ports) := by
  have hser : serialize_if_truthy (some l) = some l := by
    cases l with
    | nil => exact absurd rfl hl
    | cons a as => rfl
  have hkey : ∀ tc : Option (List JsonDict),
      add_message db sid role content tc none none =
        Except.ok
          ({ db with
              messages := db.messages ++
                [{ message_id := db.nextMessageId, session_id := sid, role := role
                   content := content, tool_calls := serialize_if_truthy tc
                   tool_results := none, message_metadata := none
                   timestamp := db.now }]
              sessions := db.sessions.map (fun s =>
                if s.session_id == sid then { s with last_active := db.now } else s)
              nextMessageId := db.nextMessageId + 1
              now := db.now + 1 }, db.nextMessageId) := by
    intro tc
    rfl
  refine ⟨rfl, rfl, hser, ?_, ?_, ?_⟩
  · intro db2 mid h
    rw [hkey (some l)] at h
    cases h
    refine ⟨_, List.mem_append_right _ (List.mem_singleton_self _), rfl, hser⟩
  · intro db2 mid h
    rw [hkey (some [])] at h
    cases h
    exact ⟨_, List.mem_append_right _ (List.mem_singleton_self _), rfl, rfl⟩
  · refine ⟨_, current_context_update hnd hc rfl, rfl, rfl⟩

unseal List.merge List.mergeSort in
/-- Witness for C7 amended at session s1 of the two-session database with
a non-empty tool-call list. -/
theorem json_field_roundtrip_witness :
    serialize_if_truthy (some ([] : List JsonDict)) = none ∧
    serialize_if_truthy (some ([[("tool", "nmap")]] : List JsonDict)) =
      some [[("tool", "nmap")]] ∧
    (∃ ctx2 : LabContextRow,
      get_lab_context (update_lab_context twoSessionDb "s1"
        { emptyUpdate with findings := some [] }) "s1" = some ctx2 ∧
      ctx2.findings = some [] ∧ ctx2.open_ports = ctx1.open_ports) := by
  have h := json_field_roundtrip twoSessionDb "s1" "user" "x" [[("tool", "nmap")]]
    (by decide) ctx1 (by decide) (by decide)
  exact ⟨h.1, h.2.2.1, h.2.2.2.2.2⟩

unseal List.merge List.mergeSort in
/-- C8 counterexample: the claim fails on the code at N = 0.  The limit is
added under Python's `if limit:`, and 0 is falsy, so
getConversationHistory(maxMessages=0) drops the LIMIT clause and returns
every message instead of at most zero. -/
theorem get_conversation_history_zero_cex :
    get_conversation_history twoSessionDb "s1" 0 = [("user", "hola")] ∧
    ¬ ((get_conversation_history twoSessionDb "s1" 0).length ≤ 0) := by
  decide

/-- C8 amended: for every POSITIVE bound N, getConversationHistory returns
at most N entries, in insertion (ascending timestamp) order — the first N
stored messages of the session, projected to role/content pairs — and
every returned entry is the projection of a stored message of that
session.  (At N = 0 the bound is ignored: see the counterexample.) -/
theorem get_conversation_history_bounded (db : DB) (sid : String) (N : Nat)
    (hts : db.messages.Pairwise (fun a b => a.timestamp < b.timestamp)) (hN : 1 ≤ N) :
    (get_conversation_history db sid N).length ≤ N ∧
    get_conversation_history db sid N =
      ((db.messages.filter (fun m => m.session_id == sid)).take N).map
        (fun m => (m.role, m.content)) ∧
    ∀ rc ∈ get_conversation_history db sid N, ∃ m, m ∈ db.messages ∧
      m.session_id = sid ∧ rc = (m.role, m.content) := by
  have hN0 : N ≠ 0 := by omega
  have h := @get_messages_sorted_take db sid N hts hN0
  unfold get_conversation_history
  rw [h]
  refine ⟨?_, rfl, ?_⟩
  · rw [List.length_map, List.length_take]
    exact min_le_left _ _
  · intro rc hrc
    rcases List.mem_map.mp hrc with ⟨m, hm, heq⟩
    have hm2 := List.mem_of_mem_take hm
    have hm3 := List.mem_of_mem_filter hm2
    have hm4 := List.of_mem_filter hm2
    exact ⟨m, hm3, by simpa using hm4, heq.symm⟩

unseal List.merge List.mergeSort in
/-- Witness for C8 amended at N = 1 on the two-session database. -/
theorem get_conversation_history_bounded_witness :
    (get_conversation_history twoSessionDb "s1" 1).length ≤ 1 ∧
    get_conversation_history twoSessionDb "s1" 1 =
      ((twoSessionDb.messages.filter (fun m => m.session_id == "s1")).take 1).map
        (fun m => (m.role, m.content)) ∧
    ∀ rc ∈ get_conversation_history twoSessionDb "s1" 1, ∃ m, m ∈ twoSessionDb.messages ∧
      m.session_id = "s1" ∧ rc = (m.role, m.content) :=
  get_conversation_history_bounded twoSessionDb "s1" 1 (by decide) (by decide)
